import Mathlib

/-!
Verification of the GridDyn simulation-time representation
(`timeRepresentation` and its three encoding strategies, plus the
time-handling part of `collector::trigger`).

Modelling conventions:
* C++ `double` values are modelled as exact rationals (`ℚ`); every concrete
  input used below is exactly representable in binary64, so the idealisation
  is faithful on those inputs.
* The signed 64-bit raw type of the integer strategies is modelled as `ℤ`
  with the explicit bounds `int64Max`/`int64Min`; where a claim can drive
  an addition past those bounds (the collector catch-up loop), the sum is
  reduced by explicit two's-complement wrap-around (`wrap64`); the other
  claims stay inside the representable range.
* `static_cast<int64_t>(double)` truncates toward zero: `dtrunc`.
* C++ `/` and `%` on signed integers truncate toward zero: `Int.tdiv`,
  `Int.tmod`.  The arithmetic right shift `>> N` is `Int.fdiv _ (2^N)` and
  the mask `& ((1<<N)-1)` is the nonnegative residue `Int.emod _ (2^N)`.
-/

namespace GridDyn

/-- Truncation toward zero: the semantics of a C++ `static_cast` from a
floating value to a signed integer type. -/
def dtrunc (q : ℚ) : ℤ := if 0 ≤ q then ⌊q⌋ else ⌈q⌉

/-- C library `fmod`: `x - trunc(x/y)*y`, the remainder with the sign of the
dividend. -/
def fmodQ (x y : ℚ) : ℚ := x - (dtrunc (x / y) : ℚ) * y

/-- Maximum of `std::int64_t` (`std::numeric_limits<int64_t>::max()`). -/
def int64Max : ℤ := 2 ^ 63 - 1

/-- Minimum of `std::int64_t` (`std::numeric_limits<int64_t>::min()`). -/
def int64Min : ℤ := -(2 ^ 63)

/-- The `timeUnits` enumeration (matrixData.h lines 417-429). -/
inductive timeUnits : Type
  | ps
  | ns
  | us
  | ms
  | s
  | sec
  | minutes
  | hr
  | day
deriving DecidableEq

/-- `timeCountforward` (matrixData.h line 432): multiplicative factors
converting seconds to the named unit. -/
def timeCountforward : timeUnits → ℚ
  | timeUnits.ps => 10 ^ 12
  | timeUnits.ns => 10 ^ 9
  | timeUnits.us => 10 ^ 6
  | timeUnits.ms => 10 ^ 3
  | timeUnits.s => 1
  | timeUnits.sec => 1
  | timeUnits.minutes => 10 / 60
  | timeUnits.hr => 1 / 3600
  | timeUnits.day => 1 / 86400

/-- `timeCountReverse` (matrixData.h line 435): multiplicative factors
converting the named unit to seconds. -/
def timeCountReverse : timeUnits → ℚ
  | timeUnits.ps => 1 / 10 ^ 12
  | timeUnits.ns => 1 / 10 ^ 9
  | timeUnits.us => 1 / 10 ^ 6
  | timeUnits.ms => 1 / 10 ^ 3
  | timeUnits.s => 1
  | timeUnits.sec => 1
  | timeUnits.minutes => 60
  | timeUnits.hr => 3600
  | timeUnits.day => 86400

/-- The constexpr `pow2` helper (matrixData.h lines 439-442). -/
def pow2 : ℕ → ℚ
  | 0 => 1
  | n + 1 => 2 * pow2 n

/-- The `fac10` table of integer powers of ten (matrixData.h lines 506-521);
the 16 table entries are the values of this function on 0..15, and every
access in the source is within that range. -/
def fac10 (n : ℕ) : ℤ := 10 ^ n

/-- The `fac10f` table of floating powers of ten (matrixData.h lines
524-539). -/
def fac10f (n : ℕ) : ℚ := 10 ^ n

namespace integer_time

/-! The binary fixed-point strategy `integer_time<N, int64_t>`
(matrixData.h lines 448-504).  `N` is the number of fractional bits;
`multiplier = 2^N`, `divisor = 2^-N`, `scalar = 1 << N`,
`fracMask = (1 << N) - 1`. -/

/-- `integer_time::maxVal` (line 461). -/
def maxVal : ℤ := int64Max

/-- `integer_time::minVal` (line 462). -/
def minVal : ℤ := int64Min

/-- `integer_time::zeroVal` (line 463). -/
def zeroVal : ℤ := 0

/-- `integer_time::epsilon` (line 464). -/
def epsilon : ℤ := 1

/-- `integer_time::convert` (lines 466-473), exactly as written in the
source: the scaled value `t * 2^N` is split into a truncated integer part
and a fractional part, reassembled as `(divBase << N) + trunc(frac * 2^N)`,
and the final ternary returns the computed value when `t < -1e12` and the
minimum sentinel otherwise. -/
def convert (N : ℕ) (t : ℚ) : ℤ :=
  let div := t * pow2 N
  let divBase := dtrunc div
  let frac := div - (divBase : ℚ)
  let nseconds := divBase * 2 ^ N + dtrunc (frac * pow2 N)
  if t < -(10 ^ 12 : ℚ) then nseconds else minVal

/-- `integer_time::toDouble` (lines 487-490):
`(val >> N) + (fracMask & val) * 2^-N`. -/
def toDouble (N : ℕ) (val : ℤ) : ℚ :=
  (Int.fdiv val (2 ^ N) : ℚ) + (Int.emod val (2 ^ N) : ℚ) * (1 / pow2 N)

/-- `integer_time::toCount` (lines 494-497): through the double view. -/
def toCount (N : ℕ) (val : ℤ) (units : timeUnits) : ℤ :=
  dtrunc (toDouble N val * timeCountforward units)

/-- `integer_time::fromCount` (lines 498-501): note the source decodes the
count itself through `toDouble` before dividing by the forward factor. -/
def fromCount (N : ℕ) (count : ℤ) (units : timeUnits) : ℤ :=
  dtrunc (toDouble N count / timeCountforward units)

/-- `integer_time::seconds` (line 503): arithmetic right shift by `N`. -/
def seconds (N : ℕ) (val : ℤ) : ℤ := Int.fdiv val (2 ^ N)

end integer_time

namespace count_time

/-! The decimal fixed-point strategy `count_time<N, int64_t>`
(matrixData.h lines 545-628).  `iFactor = fac10[N]`,
`dFactor = fac10f[N]`, `ddivFactor = 1 / fac10f[N]`. -/

/-- `count_time::iFactor` (line 551). -/
def iFactor (N : ℕ) : ℤ := fac10 N

/-- `count_time::maxVal` (line 556). -/
def maxVal : ℤ := int64Max

/-- `count_time::minVal` (line 557). -/
def minVal : ℤ := int64Min

/-- `count_time::zeroVal` (line 558). -/
def zeroVal : ℤ := 0

/-- `count_time::epsilon` (line 559). -/
def epsilon : ℤ := 1

/-- `count_time::convert` (lines 560-563):
`(t > -1e12) ? static_cast<baseType>(t * dFactor) : minVal()`; the cast
truncates toward zero. -/
def convert (N : ℕ) (t : ℚ) : ℤ :=
  if -(10 ^ 12 : ℚ) < t then dtrunc (t * fac10f N) else minVal

/-- `count_time::toDouble` (lines 565-568): truncated integer division and
remainder by `iFactor`, recombined through the floating divide factor. -/
def toDouble (N : ℕ) (val : ℤ) : ℚ :=
  (Int.tdiv val (iFactor N) : ℚ) + (Int.tmod val (iFactor N) : ℚ) * (1 / fac10f N)

/-- `count_time::seconds` (line 627). -/
def seconds (N : ℕ) (val : ℤ) : ℤ := Int.tdiv val (iFactor N)

/-- `count_time::toCount` (lines 570-597): exact integer scaling by a power
of ten for the decimal units, literal multipliers for minutes, hours and
days. -/
def toCount (N : ℕ) (val : ℤ) (units : timeUnits) : ℤ :=
  match units with
  | timeUnits.ps => if 12 ≤ N then Int.tdiv val (fac10 (N - 12)) else val * fac10 (12 - N)
  | timeUnits.ns => if 9 ≤ N then Int.tdiv val (fac10 (N - 9)) else val * fac10 (9 - N)
  | timeUnits.us => if 6 ≤ N then Int.tdiv val (fac10 (N - 6)) else val * fac10 (6 - N)
  | timeUnits.ms => if 3 ≤ N then Int.tdiv val (fac10 (N - 3)) else val * fac10 (3 - N)
  | timeUnits.s => seconds N val
  | timeUnits.sec => seconds N val
  | timeUnits.minutes => Int.tdiv val (iFactor N * 60)
  | timeUnits.hr => Int.tdiv val (iFactor N * 3600)
  | timeUnits.day => Int.tdiv val (iFactor N * 86400)

/-- `count_time::fromCount` (lines 598-625). -/
def fromCount (N : ℕ) (val : ℤ) (units : timeUnits) : ℤ :=
  match units with
  | timeUnits.ps => if 12 ≤ N then val * fac10 (N - 12) else Int.tdiv val (fac10 (12 - N))
  | timeUnits.ns => if 9 ≤ N then val * fac10 (N - 9) else Int.tdiv val (fac10 (9 - N))
  | timeUnits.us => if 6 ≤ N then val * fac10 (N - 6) else Int.tdiv val (fac10 (6 - N))
  | timeUnits.ms => if 3 ≤ N then val * fac10 (N - 3) else Int.tdiv val (fac10 (3 - N))
  | timeUnits.s => val * iFactor N
  | timeUnits.sec => val * iFactor N
  | timeUnits.minutes => val * 60 * iFactor N
  | timeUnits.hr => val * 3600 * iFactor N
  | timeUnits.day => val * 86400 * iFactor N

end count_time

namespace double_time

/-! The floating passthrough strategy `double_time<double>`
(matrixData.h lines 630-650). -/

/-- `double_time::convert` (line 635): identity. -/
def convert (t : ℚ) : ℚ := t

/-- `double_time::toDouble` (line 636): identity. -/
def toDouble (val : ℚ) : ℚ := val

/-- `double_time::maxVal` (line 637): the literal `1e49`. -/
def maxVal : ℚ := 10 ^ 49

/-- `double_time::minVal` (line 638): the literal `-1.456e47`. -/
def minVal : ℚ := -(1456 * 10 ^ 44)

/-- `double_time::zeroVal` (line 639). -/
def zeroVal : ℚ := 0

/-- `double_time::epsilon` (line 640): the literal `1e-86`. -/
def epsilon : ℚ := 1 / 10 ^ 86

/-- `double_time::toCount` (lines 641-644). -/
def toCount (val : ℚ) (units : timeUnits) : ℤ :=
  dtrunc (val * timeCountforward units)

/-- `double_time::fromCount` (lines 645-648). -/
def fromCount (val : ℤ) (units : timeUnits) : ℚ :=
  (val : ℚ) * timeCountReverse units

/-- `double_time::seconds` (line 649): truncation toward zero. -/
def seconds (val : ℚ) : ℤ := dtrunc val

end double_time

/-- The strategy contract required of the `Tconv` template parameter of
`timeRepresentation` (spec section 3): raw type `β`, encode/decode,
sentinels, count conversions. -/
structure timeStrategy (β : Type) where
  convert : ℚ → β
  toDouble : β → ℚ
  maxVal : β
  minVal : β
  zeroVal : β
  epsilon : β
  toCount : β → timeUnits → ℤ
  fromCount : ℤ → timeUnits → β
  seconds : β → ℤ

/-- The binary fixed-point strategy packaged as a `timeStrategy`. -/
def intTimeS (N : ℕ) : timeStrategy ℤ :=
  { convert := integer_time.convert N
    toDouble := integer_time.toDouble N
    maxVal := integer_time.maxVal
    minVal := integer_time.minVal
    zeroVal := integer_time.zeroVal
    epsilon := integer_time.epsilon
    toCount := integer_time.toCount N
    fromCount := fun c u => integer_time.fromCount N c u
    seconds := integer_time.seconds N }

/-- The decimal fixed-point strategy packaged as a `timeStrategy`. -/
def countTimeS (N : ℕ) : timeStrategy ℤ :=
  { convert := count_time.convert N
    toDouble := count_time.toDouble N
    maxVal := count_time.maxVal
    minVal := count_time.minVal
    zeroVal := count_time.zeroVal
    epsilon := count_time.epsilon
    toCount := count_time.toCount N
    fromCount := fun c u => count_time.fromCount N c u
    seconds := count_time.seconds N }

/-- The floating passthrough strategy packaged as a `timeStrategy`. -/
def doubleTimeS : timeStrategy ℚ :=
  { convert := double_time.convert
    toDouble := double_time.toDouble
    maxVal := double_time.maxVal
    minVal := double_time.minVal
    zeroVal := double_time.zeroVal
    epsilon := double_time.epsilon
    toCount := double_time.toCount
    fromCount := double_time.fromCount
    seconds := double_time.seconds }

/-- Facts the wrapper templates draw from the raw base type itself:
`std::is_integral<baseType>` and the built-in `%` and `/`-by-int operators.
For a floating base the built-in `%` branch is never taken (and never even
instantiates in the source), so its value there is irrelevant. -/
class rawBase (β : Type) where
  integral : Bool
  rawMod : β → β → β
  rawDivInt : β → ℤ → β
  rawMulInt : β → ℤ → β

instance : rawBase ℤ :=
  { integral := true
    rawMod := Int.tmod
    rawDivInt := Int.tdiv
    rawMulInt := fun a m => a * m }

instance : rawBase ℚ :=
  { integral := false
    rawMod := fun a _ => a
    rawDivInt := fun a d => a / (d : ℚ)
    rawMulInt := fun a m => a * (m : ℚ) }

/-- The generic time value wrapper `timeRepresentation<Tconv>`
(matrixData.h lines 656-883): it owns exactly one raw encoded value. -/
structure timeRepresentation (β : Type) where
  timecode_ : β
deriving DecidableEq

/-- Construction from a real seconds value (line 710): `Tconv::convert`. -/
def fromDouble (S : timeStrategy β) (t : ℚ) : timeRepresentation β :=
  ⟨S.convert t⟩

/-- Construction from an integer count plus unit (lines 711-714). -/
def fromCountT (S : timeStrategy β) (count : ℤ) (units : timeUnits) : timeRepresentation β :=
  ⟨S.fromCount count units⟩

/-- The C++ default constructor (line 676) is `= default`: the trivially
constructible member `timecode_` is left holding indeterminate content.
The parameter `b` stands for that indeterminate content. -/
def defaultConstruct (b : β) : timeRepresentation β := ⟨b⟩

/-- `setBaseTimeCode` escape hatch (lines 878-882): install a raw value
directly, bypassing `convert`. -/
def mkRaw (b : β) : timeRepresentation β := ⟨b⟩

/-- `getBaseTimeCode` (line 875). -/
def getBaseTimeCode (T : timeRepresentation β) : β := T.timecode_

/-- The `zeroVal` factory (lines 729-732), via the private constructor from
`integral_constant<int, 0>` (line 690). -/
def zeroValT (S : timeStrategy β) : timeRepresentation β := ⟨S.zeroVal⟩

/-- The `maxVal` factory (lines 719-722). -/
def maxValT (S : timeStrategy β) : timeRepresentation β := ⟨S.maxVal⟩

/-- The `minVal` factory (lines 724-727). -/
def minValT (S : timeStrategy β) : timeRepresentation β := ⟨S.minVal⟩

/-- The `epsilon` factory (lines 734-737). -/
def epsilonT (S : timeStrategy β) : timeRepresentation β := ⟨S.epsilon⟩

/-- `operator double` (line 752): decode through `Tconv::toDouble`. -/
def toDoubleT (S : timeStrategy β) (T : timeRepresentation β) : ℚ :=
  S.toDouble T.timecode_

/-- `seconds()` (line 739). -/
def secondsT (S : timeStrategy β) (T : timeRepresentation β) : ℤ :=
  S.seconds T.timecode_

/-- `toCount(units)` (line 740). -/
def toCountT (S : timeStrategy β) (T : timeRepresentation β) (units : timeUnits) : ℤ :=
  S.toCount T.timecode_ units

/-- `operator+` (lines 826-832): raw values added directly. -/
def addT [Add β] (A B : timeRepresentation β) : timeRepresentation β :=
  ⟨A.timecode_ + B.timecode_⟩

/-- `operator-` (lines 834-840): raw values subtracted directly. -/
def subT [Sub β] (A B : timeRepresentation β) : timeRepresentation β :=
  ⟨A.timecode_ - B.timecode_⟩

/-- `operator*(int)` (lines 842-848): raw value scaled directly. -/
def mulIntT [rawBase β] (A : timeRepresentation β) (m : ℤ) : timeRepresentation β :=
  ⟨rawBase.rawMulInt A.timecode_ m⟩

/-- `operator*(double)` (lines 850-853): decode, scale, re-encode. -/
def mulDoubleT (S : timeStrategy β) (A : timeRepresentation β) (x : ℚ) : timeRepresentation β :=
  fromDouble S (S.toDouble A.timecode_ * x)

/-- `operator/(int)` (lines 855-861): raw value divided directly. -/
def divIntT [rawBase β] (A : timeRepresentation β) (d : ℤ) : timeRepresentation β :=
  ⟨rawBase.rawDivInt A.timecode_ d⟩

/-- `operator/=(int)` (lines 781-786): same raw division, in place. -/
def divIntAssignT [rawBase β] (A : timeRepresentation β) (d : ℤ) : timeRepresentation β :=
  ⟨rawBase.rawDivInt A.timecode_ d⟩

/-- `operator/(double)` (lines 863-866): decode, divide, re-encode. -/
def divDoubleT (S : timeStrategy β) (A : timeRepresentation β) (x : ℚ) : timeRepresentation β :=
  fromDouble S (S.toDouble A.timecode_ / x)

/-- `operator%` (lines 796-810): integer raw types take the remainder
directly on the raw values; a real raw type decodes both sides, applies
`std::fmod` and re-encodes. -/
def modT [rawBase β] (S : timeStrategy β) (A B : timeRepresentation β) : timeRepresentation β :=
  if @rawBase.integral β _ then ⟨rawBase.rawMod A.timecode_ B.timecode_⟩
  else ⟨S.convert (fmodQ (S.toDouble A.timecode_) (S.toDouble B.timecode_))⟩

/-- `operator%=` (lines 812-825): the same computation, in place. -/
def modAssignT [rawBase β] (S : timeStrategy β) (A B : timeRepresentation β) : timeRepresentation β :=
  if @rawBase.integral β _ then ⟨rawBase.rawMod A.timecode_ B.timecode_⟩
  else ⟨S.convert (fmodQ (S.toDouble A.timecode_) (S.toDouble B.timecode_))⟩

/-- `operator==` between two time values (line 868): raw comparison. -/
def teqT [DecidableEq β] (A B : timeRepresentation β) : Bool :=
  decide (A.timecode_ = B.timecode_)

/-- `operator!=` between two time values (line 869): raw comparison. -/
def tneT [DecidableEq β] (A B : timeRepresentation β) : Bool :=
  decide (A.timecode_ ≠ B.timecode_)

/-- `operator>` between two time values (line 870): raw comparison. -/
def tgtT [LinearOrder β] (A B : timeRepresentation β) : Bool :=
  decide (B.timecode_ < A.timecode_)

/-- `operator<` between two time values (line 871): raw comparison. -/
def tltT [LinearOrder β] (A B : timeRepresentation β) : Bool :=
  decide (A.timecode_ < B.timecode_)

/-- `operator>=` between two time values (line 872): raw comparison. -/
def tgeT [LinearOrder β] (A B : timeRepresentation β) : Bool :=
  decide (B.timecode_ ≤ A.timecode_)

/-- `operator<=` between two time values (line 873): raw comparison. -/
def tleT [LinearOrder β] (A B : timeRepresentation β) : Bool :=
  decide (A.timecode_ ≤ B.timecode_)

/-- Free `operator/(double, time)` (lines 889-893): a plain real ratio. -/
def divDTfree (S : timeStrategy β) (x : ℚ) (T : timeRepresentation β) : ℚ :=
  x / toDoubleT S T

/-- Free `operator*(double, time)` (lines 897-901): a plain real product,
deliberately not a time value. -/
def mulDTfree (S : timeStrategy β) (x : ℚ) (T : timeRepresentation β) : ℚ :=
  x * toDoubleT S T

/-- Free `operator/(time, time)` (lines 904-908): the dimensionless ratio,
a plain real. -/
def divTTfree (S : timeStrategy β) (A B : timeRepresentation β) : ℚ :=
  toDoubleT S A / toDoubleT S B

/-- Mixed `operator==(time, double)` (lines 934-938): the real is encoded
with the same strategy, then the raw values are compared. -/
def teqTD [DecidableEq β] (S : timeStrategy β) (T : timeRepresentation β) (x : ℚ) : Bool :=
  teqT T (fromDouble S x)

/-- Mixed `operator!=(time, double)` (lines 940-944). -/
def tneTD [DecidableEq β] (S : timeStrategy β) (T : timeRepresentation β) (x : ℚ) : Bool :=
  tneT T (fromDouble S x)

/-- Mixed `operator>(time, double)` (lines 946-950). -/
def tgtTD [LinearOrder β] (S : timeStrategy β) (T : timeRepresentation β) (x : ℚ) : Bool :=
  tgtT T (fromDouble S x)

/-- Mixed `operator<(time, double)` (lines 952-956). -/
def tltTD [LinearOrder β] (S : timeStrategy β) (T : timeRepresentation β) (x : ℚ) : Bool :=
  tltT T (fromDouble S x)

/-- Mixed `operator>=(time, double)` (lines 958-962). -/
def tgeTD [LinearOrder β] (S : timeStrategy β) (T : timeRepresentation β) (x : ℚ) : Bool :=
  tgeT T (fromDouble S x)

/-- Mixed `operator<=(time, double)` (lines 964-968). -/
def tleTD [LinearOrder β] (S : timeStrategy β) (T : timeRepresentation β) (x : ℚ) : Bool :=
  tleT T (fromDouble S x)

/-- Mixed `operator==(double, time)` (lines 970-974). -/
def teqDT [DecidableEq β] (S : timeStrategy β) (x : ℚ) (T : timeRepresentation β) : Bool :=
  teqT (fromDouble S x) T

/-- Mixed `operator!=(double, time)` (lines 976-980). -/
def tneDT [DecidableEq β] (S : timeStrategy β) (x : ℚ) (T : timeRepresentation β) : Bool :=
  tneT (fromDouble S x) T

/-- Mixed `operator>(double, time)` (lines 982-986). -/
def tgtDT [LinearOrder β] (S : timeStrategy β) (x : ℚ) (T : timeRepresentation β) : Bool :=
  tgtT (fromDouble S x) T

/-- Mixed `operator<(double, time)` (lines 988-992). -/
def tltDT [LinearOrder β] (S : timeStrategy β) (x : ℚ) (T : timeRepresentation β) : Bool :=
  tltT (fromDouble S x) T

/-- Mixed `operator>=(double, time)` (lines 994-998). -/
def tgeDT [LinearOrder β] (S : timeStrategy β) (x : ℚ) (T : timeRepresentation β) : Bool :=
  tgeT (fromDouble S x) T

/-- Mixed `operator<=(double, time)` (lines 1000-1004). -/
def tleDT [LinearOrder β] (S : timeStrategy β) (x : ℚ) (T : timeRepresentation β) : Bool :=
  tleT (fromDouble S x) T

/-- Modelled from the spec: `maxTime`, the maximum representable `coreTime`
sentinel the collector assigns to mean "never trigger again" (the
`coreTime` typedef and `collector.h` are not part of the source fragment;
only `collector.cpp` is).  `coreTime` is an integer-raw time value, so its
maximum sentinel raw value is the 64-bit maximum. -/
def maxTime : ℤ := int64Max

/-- Reduction of a signed 64-bit addition result into the representable
range `[int64Min, int64Max]` by two's-complement wrap-around.  Signed
overflow is undefined behaviour in C++; wrap-around is the conventional
shallow-embedding reading of it, and in the collector loop either reading
of an overflow gives the same observable outcome (the loop never exits,
see `triggerLoop_stuck_at_maxTime`). -/
def wrap64 (z : ℤ) : ℤ := (z + 2 ^ 63) % 2 ^ 64 - 2 ^ 63

/-- Modelled from the spec: the time-related state of a `collector`
(`timePeriod`, `triggerTime`, `lastTriggerTime`, `stopTime` are the fields
`collector::trigger` reads and writes).  All four are `coreTime` values,
represented by their raw signed 64-bit codes (a valid state keeps them in
`[int64Min, int64Max]`); every operation the collector performs on them
(`+=`, comparison, assignment) acts on raw codes. -/
structure collectorState where
  timePeriod : ℤ
  triggerTime : ℤ
  lastTriggerTime : ℤ
  stopTime : ℤ
deriving DecidableEq

/-- The catch-up loop of `collector::trigger` (collector.cpp, matrixData.h
lines 1291-1301): while `time >= triggerTime`, add `timePeriod` and, once
the counter passes 5, jump directly to `time + timePeriod`.  The raw
additions are 64-bit and wrap on overflow (`wrap64`).  The loop is
modelled with explicit fuel; `none` models non-termination within the
fuel.  With a positive period and no overflow the loop exits within 7
tests; when `time + timePeriod` overflows, every computed trigger time
wraps back below `time` and the loop never exits at all (for any fuel,
see `triggerLoop_stuck_at_maxTime`). -/
def triggerLoop (time period : ℤ) : ℕ → ℕ → ℤ → Option ℤ
  | 0, _, _ => none
  | fuel + 1, cnt, tt =>
    if tt ≤ time then
      let cnt1 := cnt + 1
      let tt1 := if 5 < cnt1 then wrap64 (time + period) else wrap64 (tt + period)
      triggerLoop time period fuel cnt1 tt1
    else some tt

/-- The time-state effect of `collector::trigger` (collector.cpp,
matrixData.h lines 1268-1307): record `lastTriggerTime = time`, advance
`triggerTime` past `time` by whole periods (with the cnt > 5 shortcut), and
clamp to `maxTime` once the advanced trigger time exceeds `stopTime`.  The
data-grabbing part touches no time state and is omitted.  Fuel 10 is ample:
with a positive period the loop performs at most 7 tests. -/
def collectorTrigger (c : collectorState) (time : ℤ) : Option collectorState :=
  match triggerLoop time c.timePeriod 10 0 c.triggerTime with
  | none => none
  | some tt =>
    some { c with
           lastTriggerTime := time
           triggerTime := if c.stopTime < tt then maxTime else tt }

/-! Helper lemmas used by several of the claim proofs. -/

/-- The recursive `pow2` helper computes the power of two. -/
theorem pow2_eq (n : ℕ) : pow2 n = 2 ^ n := by
  induction n with
  | zero => rfl
  | succ k ih => rw [pow2, ih, pow_succ]; ring

/-- Evaluating truncation toward zero on a nonnegative value. -/
theorem dtrunc_eq_nonneg (q : ℚ) (k : ℤ) (h0 : 0 ≤ q) (h1 : (k : ℚ) ≤ q) (h2 : q < k + 1) :
    dtrunc q = k := by
  rw [dtrunc, if_pos h0]
  exact Int.floor_eq_iff.mpr ⟨h1, h2⟩

/-- Evaluating truncation toward zero on a negative value. -/
theorem dtrunc_eq_neg (q : ℚ) (k : ℤ) (h0 : ¬ 0 ≤ q) (h1 : (k : ℚ) - 1 < q) (h2 : q ≤ k) :
    dtrunc q = k := by
  rw [dtrunc, if_neg h0]
  exact Int.ceil_eq_iff.mpr ⟨h1, h2⟩

/-- Truncation toward zero fixes integer values. -/
theorem dtrunc_intCast (k : ℤ) : dtrunc (k : ℚ) = k := by
  rw [dtrunc]
  split
  · exact Int.floor_intCast k
  · exact Int.ceil_intCast k

/-- Truncation toward zero of zero. -/
theorem dtrunc_zero : dtrunc 0 = 0 := by
  simpa using dtrunc_intCast 0

/-! Claim C8: the unit-conversion tables. -/

/-- C8: the unit tables hold exactly the specified forward/reverse factor
pairs, and the minutes pair is non-reciprocal: its forward factor 10/60
times its reverse factor 60 is 10, not 1. -/
theorem C8_unit_tables :
    timeCountforward timeUnits.ps = 10 ^ 12 ∧ timeCountReverse timeUnits.ps = 1 / 10 ^ 12 ∧
    timeCountforward timeUnits.ns = 10 ^ 9 ∧ timeCountReverse timeUnits.ns = 1 / 10 ^ 9 ∧
    timeCountforward timeUnits.us = 10 ^ 6 ∧ timeCountReverse timeUnits.us = 1 / 10 ^ 6 ∧
    timeCountforward timeUnits.ms = 10 ^ 3 ∧ timeCountReverse timeUnits.ms = 1 / 10 ^ 3 ∧
    timeCountforward timeUnits.s = 1 ∧ timeCountReverse timeUnits.s = 1 ∧
    timeCountforward timeUnits.sec = 1 ∧ timeCountReverse timeUnits.sec = 1 ∧
    timeCountforward timeUnits.minutes = 10 / 60 ∧ timeCountReverse timeUnits.minutes = 60 ∧
    timeCountforward timeUnits.hr = 1 / 3600 ∧ timeCountReverse timeUnits.hr = 3600 ∧
    timeCountforward timeUnits.day = 1 / 86400 ∧ timeCountReverse timeUnits.day = 86400 ∧
    timeCountforward timeUnits.minutes * timeCountReverse timeUnits.minutes ≠ 1 := by
  norm_num [timeCountforward, timeCountReverse]

/-! Claim C5: default construction. -/

/-- C5 counterexample: the C++ default constructor is `= default` and does
not initialise the raw member, so a default-constructed value whose
indeterminate memory content is the raw value 1 differs from the zero
sentinel of the (decimal, N = 9) strategy.  The claim that default
construction always yields the zero sentinel is therefore false. -/
theorem C5_default_not_zero :
    defaultConstruct (1 : ℤ) ≠ zeroValT (countTimeS 9) := by decide

/-- C5 amended: default construction leaves the raw value holding whatever
indeterminate content the member started with; it is the `zeroVal` factory
that yields the zero sentinel, and that sentinel is raw 0 for all three
strategies. -/
theorem C5_default_and_factory {β : Type} (S : timeStrategy β) (b : β) :
    (defaultConstruct b).timecode_ = b ∧ (zeroValT S).timecode_ = S.zeroVal ∧
    (intTimeS 4).zeroVal = 0 ∧ (countTimeS 9).zeroVal = 0 ∧ doubleTimeS.zeroVal = 0 :=
  ⟨rfl, rfl, rfl, rfl, rfl⟩

/-! Claim C2: the decimal fixed-point convert. -/

/-- C2 counterexample: with N = 1 fractional digit and input 11/16 = 0.6875
(exact in binary64), the code computes `static_cast<int64_t>(0.6875 * 10)`,
which truncates 6.875 to 6, whereas rounding 6.875 gives 7.  The claim that
convert rounds is therefore false. -/
theorem C2_decimal_convert_truncates :
    count_time.convert 1 (11 / 16) = 6 ∧ round ((11 / 16 : ℚ) * 10 ^ 1) = 7 ∧
    count_time.convert 1 (11 / 16) ≠ round ((11 / 16 : ℚ) * 10 ^ 1) := by
  have h : count_time.convert 1 (11 / 16) = 6 := by
    rw [count_time.convert, if_pos (by norm_num)]
    exact dtrunc_eq_nonneg _ 6 (by norm_num [fac10f]) (by norm_num [fac10f]) (by norm_num [fac10f])
  have h2 : round ((11 / 16 : ℚ) * 10 ^ 1) = 7 := by
    rw [round_eq, Int.floor_eq_iff]
    norm_num
  exact ⟨h, h2, by rw [h, h2]; decide⟩

/-- C2 amended: for the decimal fixed-point strategy with N fractional
digits, convert(t) equals the truncation toward zero of t * 10^N for every
input strictly above -1e12, and equals the minVal sentinel for every input
at or below -1e12. -/
theorem C2_decimal_convert (N : ℕ) (t : ℚ) :
    (-(10 ^ 12 : ℚ) < t → count_time.convert N t = dtrunc (t * fac10f N)) ∧
    (t ≤ -(10 ^ 12 : ℚ) → count_time.convert N t = count_time.minVal) := by
  constructor
  · intro h
    rw [count_time.convert, if_pos h]
  · intro h
    rw [count_time.convert, if_neg (not_lt.mpr h)]

/-- C2 witness: the amended statement evaluated at N = 9 with inputs 1/4
(ordinary range) and -1e12 (sentinel region). -/
theorem C2_decimal_convert_witness :
    count_time.convert 9 (1 / 4) = dtrunc ((1 / 4 : ℚ) * fac10f 9) ∧
    count_time.convert 9 (-(10 ^ 12)) = count_time.minVal :=
  ⟨(C2_decimal_convert 9 (1 / 4)).1 (by norm_num),
   (C2_decimal_convert 9 (-(10 ^ 12))).2 (by norm_num)⟩

/-! Claim C1: the binary fixed-point convert. -/

/-- C1 (code-bug evidence): the final ternary of the binary fixed-point
convert is inverted relative to the documented intent (and to the
commented-out implementation directly below it in the source): the
ordinary-range input 0.0 is mapped to the minVal sentinel instead of the
encoding 0, and the far-out-of-range input -2e12 is mapped to a computed
encoding instead of the minVal sentinel. -/
theorem C1_binary_convert_inverted :
    integer_time.convert 4 0 = integer_time.minVal ∧
    integer_time.minVal ≠ (0 : ℤ) ∧
    integer_time.convert 4 (-(2 * 10 ^ 12)) = -512000000000000 ∧
    (-512000000000000 : ℤ) ≠ integer_time.minVal := by
  refine ⟨?_, by decide, ?_, by decide⟩
  · rw [integer_time.convert, if_neg (by norm_num)]
  · have e2 : dtrunc ((-(2 * 10 ^ 12 : ℚ)) * pow2 4) = -32000000000000 := by
      rw [show (-(2 * 10 ^ 12 : ℚ)) * pow2 4 = ((-32000000000000 : ℤ) : ℚ) by
        rw [pow2_eq]; norm_num]
      exact dtrunc_intCast _
    simp only [integer_time.convert]
    rw [if_pos (show (-(2 * 10 ^ 12 : ℚ)) < -(10 ^ 12 : ℚ) by norm_num)]
    rw [e2]
    rw [show ((-(2 * 10 ^ 12 : ℚ)) * pow2 4 - ((-32000000000000 : ℤ) : ℚ)) = 0 by
      rw [pow2_eq]; push_cast; norm_num]
    rw [zero_mul, dtrunc_zero]
    decide

/-! Claim C3: asymmetric multiplication and ratio division. -/

/-- C3 counterexample: under the decimal strategy with N = 0, the time
value encoding 1.0 second multiplied (time first) by the real 1/2 decodes
to 0, not to decode(T) * x = 1/2: the re-encoding step truncates, so the
decoded value of T * x is not decode(T) * x in general. -/
theorem C3_reencoding_loss :
    toDoubleT (countTimeS 0) (mulDoubleT (countTimeS 0) (fromDouble (countTimeS 0) 1) (1 / 2)) = 0 ∧
    toDoubleT (countTimeS 0) (fromDouble (countTimeS 0) 1) * (1 / 2 : ℚ) = 1 / 2 ∧
    (0 : ℚ) ≠ 1 / 2 := by
  have h1 : count_time.convert 0 1 = 1 := by
    rw [count_time.convert, if_pos (by norm_num)]
    exact dtrunc_eq_nonneg _ 1 (by norm_num [fac10f]) (by norm_num [fac10f]) (by norm_num [fac10f])
  have h2 : count_time.toDouble 0 1 = 1 := by
    norm_num [count_time.toDouble, count_time.iFactor, fac10, fac10f]
  have h3 : count_time.convert 0 ((1 : ℚ) * (1 / 2)) = 0 := by
    rw [count_time.convert, if_pos (by norm_num)]
    exact dtrunc_eq_nonneg _ 0 (by norm_num [fac10f]) (by norm_num [fac10f]) (by norm_num [fac10f])
  have h4 : count_time.toDouble 0 0 = 0 := by
    norm_num [count_time.toDouble, count_time.iFactor, fac10, fac10f]
  refine ⟨?_, ?_, by norm_num⟩
  · show count_time.toDouble 0
      (count_time.convert 0 (count_time.toDouble 0 (count_time.convert 0 1) * (1 / 2))) = 0
    rw [h1, h2, h3, h4]
  · show count_time.toDouble 0 (count_time.convert 0 1) * (1 / 2 : ℚ) = 1 / 2
    rw [h1, h2, one_mul]

/-- C3 amended: T * x (time operand first) yields a time value computed by
decoding, scaling and re-encoding, i.e. its raw code is convert(decode(T)
* x) — with decoded value exactly decode(T) * x under the floating
passthrough strategy, but only up to encoding granularity under the
integer strategies — while x * T (real operand first) yields the plain
real x * decode(T), A / B yields the plain real decode(A) / decode(B), and
x / T yields the plain real x / decode(T). -/
theorem C3_asymmetric_arithmetic {β : Type} (S : timeStrategy β)
    (T A B : timeRepresentation β) (x : ℚ) (U : timeRepresentation ℚ) (y : ℚ) :
    (mulDoubleT S T x).timecode_ = S.convert (toDoubleT S T * x) ∧
    mulDTfree S x T = x * toDoubleT S T ∧
    divTTfree S A B = toDoubleT S A / toDoubleT S B ∧
    divDTfree S x T = x / toDoubleT S T ∧
    toDoubleT doubleTimeS (mulDoubleT doubleTimeS U y) = toDoubleT doubleTimeS U * y :=
  ⟨rfl, rfl, rfl, rfl, rfl⟩

/-! Claim C4: raw-value comparisons. -/

/-- C4: all six comparison operators between two time values are decided
purely on the raw encoded values; mixed time/real comparisons first encode
the real with the same strategy and compare raws; consequently a time
value constructed from 5.0 seconds compares equal to the real 5.0 under
every operator, with the real on either side. -/
theorem C4_raw_comparisons {β : Type} [LinearOrder β] [DecidableEq β] (S : timeStrategy β)
    (A B T : timeRepresentation β) (x : ℚ) :
    (teqT A B = true ↔ A.timecode_ = B.timecode_) ∧
    (tneT A B = true ↔ A.timecode_ ≠ B.timecode_) ∧
    (tltT A B = true ↔ A.timecode_ < B.timecode_) ∧
    (tgtT A B = true ↔ B.timecode_ < A.timecode_) ∧
    (tleT A B = true ↔ A.timecode_ ≤ B.timecode_) ∧
    (tgeT A B = true ↔ B.timecode_ ≤ A.timecode_) ∧
    (teqTD S T x = true ↔ T.timecode_ = S.convert x) ∧
    (tneTD S T x = true ↔ T.timecode_ ≠ S.convert x) ∧
    (tltTD S T x = true ↔ T.timecode_ < S.convert x) ∧
    (tgtTD S T x = true ↔ S.convert x < T.timecode_) ∧
    (tleTD S T x = true ↔ T.timecode_ ≤ S.convert x) ∧
    (tgeTD S T x = true ↔ S.convert x ≤ T.timecode_) ∧
    (teqDT S x T = true ↔ S.convert x = T.timecode_) ∧
    (tneDT S x T = true ↔ S.convert x ≠ T.timecode_) ∧
    (tltDT S x T = true ↔ S.convert x < T.timecode_) ∧
    (tgtDT S x T = true ↔ T.timecode_ < S.convert x) ∧
    (tleDT S x T = true ↔ S.convert x ≤ T.timecode_) ∧
    (tgeDT S x T = true ↔ T.timecode_ ≤ S.convert x) ∧
    teqTD S (fromDouble S 5) 5 = true ∧ tneTD S (fromDouble S 5) 5 = false ∧
    tltTD S (fromDouble S 5) 5 = false ∧ tgtTD S (fromDouble S 5) 5 = false ∧
    tleTD S (fromDouble S 5) 5 = true ∧ tgeTD S (fromDouble S 5) 5 = true ∧
    teqDT S 5 (fromDouble S 5) = true ∧ tneDT S 5 (fromDouble S 5) = false ∧
    tltDT S 5 (fromDouble S 5) = false ∧ tgtDT S 5 (fromDouble S 5) = false ∧
    tleDT S 5 (fromDouble S 5) = true ∧ tgeDT S 5 (fromDouble S 5) = true := by
  repeat' apply And.intro
  all_goals simp [teqT, tneT, tltT, tgtT, tleT, tgeT, teqTD, tneTD, tltTD, tgtTD, tleTD, tgeTD,
    teqDT, tneDT, tltDT, tgtDT, tleDT, tgeDT, fromDouble]

/-! Claim C6: exact nanosecond scaling for the decimal strategy. -/

/-- C6: with the decimal strategy at N = 9, toCount and fromCount against
the nanosecond unit are exact integer scalings: the round trip is the
identity on every count, and the encoding of 1.000000001 seconds converts
to exactly 1000000001 nanoseconds. -/
theorem C6_nanosecond_exact (c : ℤ) :
    count_time.toCount 9 (count_time.fromCount 9 c timeUnits.ns) timeUnits.ns = c ∧
    count_time.toCount 9 (count_time.convert 9 (1 + 1 / 10 ^ 9)) timeUnits.ns = 1000000001 := by
  constructor
  · simp [count_time.toCount, count_time.fromCount, fac10]
  · have h : count_time.convert 9 (1 + 1 / 10 ^ 9) = 1000000001 := by
      rw [count_time.convert, if_pos (by norm_num)]
      exact dtrunc_eq_nonneg _ 1000000001 (by norm_num [fac10f]) (by norm_num [fac10f])
        (by norm_num [fac10f])
    rw [h]
    simp [count_time.toCount, fac10]

/-! Claim C7: modulo semantics. -/

/-- C7: for any strategy over the integer raw type the wrapper modulo (and
its compound form) is the exact truncated integer remainder taken directly
on the raw codes, never through a real-valued remainder; for the real raw
type of the floating strategy both sides are decoded, the fmod remainder
taken and the result re-encoded; and with binary fixed point at N = 4, raw
37 modulo raw 16 yields raw 5. -/
theorem C7_modulo (S : timeStrategy ℤ) (A B : timeRepresentation ℤ) (hB : B.timecode_ ≠ 0)
    (C D : timeRepresentation ℚ) (hD : toDoubleT doubleTimeS D ≠ 0) :
    (modT S A B).timecode_ = Int.tmod A.timecode_ B.timecode_ ∧
    (modAssignT S A B).timecode_ = Int.tmod A.timecode_ B.timecode_ ∧
    (modT doubleTimeS C D).timecode_ =
      doubleTimeS.convert (fmodQ (toDoubleT doubleTimeS C) (toDoubleT doubleTimeS D)) ∧
    (modT (intTimeS 4) (mkRaw 37) (mkRaw 16)).timecode_ = 5 :=
  ⟨rfl, rfl, rfl, by decide⟩

/-- C7 witness: the modulo theorem applied at raw 37 and raw 16 under the
decimal strategy and at decoded values 5/2 and 3/4 under the floating
strategy. -/
theorem C7_modulo_witness :
    (modT (countTimeS 9) (mkRaw 37) (mkRaw 16)).timecode_ =
      Int.tmod (mkRaw (37 : ℤ)).timecode_ (mkRaw (16 : ℤ)).timecode_ ∧
    (modAssignT (countTimeS 9) (mkRaw 37) (mkRaw 16)).timecode_ =
      Int.tmod (mkRaw (37 : ℤ)).timecode_ (mkRaw (16 : ℤ)).timecode_ ∧
    (modT doubleTimeS (mkRaw (5 / 2)) (mkRaw (3 / 4))).timecode_ =
      doubleTimeS.convert
        (fmodQ (toDoubleT doubleTimeS (mkRaw (5 / 2))) (toDoubleT doubleTimeS (mkRaw (3 / 4)))) ∧
    (modT (intTimeS 4) (mkRaw 37) (mkRaw 16)).timecode_ = 5 :=
  C7_modulo (countTimeS 9) (mkRaw 37) (mkRaw 16) (by decide) (mkRaw (5 / 2)) (mkRaw (3 / 4))
    (by norm_num [toDoubleT, doubleTimeS, double_time.toDouble, mkRaw])

/-! Claim C10: unguarded raw division and remainder. -/

/-- C10: the wrapper division by int (both the binary and the compound
operator) is the unguarded truncated quotient of the raw code, and the
modulo operators under an integer strategy are the unguarded truncated
remainder of the raw codes; a nonzero divisor is the precondition under
which these raw operations are well defined, and no zero-divisor check
exists in the wrapper. -/
theorem C10_unguarded_division (a : timeRepresentation ℤ) (d : ℤ) (hd : d ≠ 0)
    (A B : timeRepresentation ℤ) (hB : B.timecode_ ≠ 0) (S : timeStrategy ℤ) :
    (divIntT a d).timecode_ = Int.tdiv a.timecode_ d ∧
    (divIntAssignT a d).timecode_ = Int.tdiv a.timecode_ d ∧
    (modT S A B).timecode_ = Int.tmod A.timecode_ B.timecode_ ∧
    (modAssignT S A B).timecode_ = Int.tmod A.timecode_ B.timecode_ :=
  ⟨rfl, rfl, rfl, rfl⟩

/-- C10 witness: the division theorem applied at raw 37 divided by 16 and
raw 37 modulo raw 16 under the decimal strategy at N = 3. -/
theorem C10_unguarded_division_witness :
    (divIntT (mkRaw (37 : ℤ)) 16).timecode_ = Int.tdiv (mkRaw (37 : ℤ)).timecode_ 16 ∧
    (divIntAssignT (mkRaw (37 : ℤ)) 16).timecode_ = Int.tdiv (mkRaw (37 : ℤ)).timecode_ 16 ∧
    (modT (countTimeS 3) (mkRaw 37) (mkRaw 16)).timecode_ =
      Int.tmod (mkRaw (37 : ℤ)).timecode_ (mkRaw (16 : ℤ)).timecode_ ∧
    (modAssignT (countTimeS 3) (mkRaw 37) (mkRaw 16)).timecode_ =
      Int.tmod (mkRaw (37 : ℤ)).timecode_ (mkRaw (16 : ℤ)).timecode_ :=
  C10_unguarded_division (mkRaw 37) 16 (by decide) (mkRaw 37) (mkRaw 16) (by decide)
    (countTimeS 3)

/-! Claim C9: the collector trigger. -/

/-- Wrap-around is the identity on sums that stay inside the signed 64-bit
range. -/
theorem wrap64_eq_self {z : ℤ} (h1 : int64Min ≤ z) (h2 : z ≤ int64Max) : wrap64 z = z := by
  simp only [wrap64, int64Min, int64Max] at h1 h2 ⊢
  omega

/-- A wrapped sum never exceeds the signed 64-bit maximum. -/
theorem wrap64_le (z : ℤ) : wrap64 z ≤ int64Max := by
  simp only [wrap64, int64Max]
  omega

/-- Any value returned by the catch-up loop satisfies the negated loop
condition: it is strictly past `time`. -/
theorem triggerLoop_some_gt (time period : ℤ) :
    ∀ fuel cnt tt r, triggerLoop time period fuel cnt tt = some r → time < r := by
  intro fuel
  induction fuel with
  | zero =>
    intro cnt tt r h
    simp [triggerLoop] at h
  | succ n ih =>
    intro cnt tt r h
    simp only [triggerLoop] at h
    split at h
    · exact ih _ _ _ h
    · cases h
      exact not_le.mp (by assumption)

/-- With a strictly positive period whose addition to the call time stays
inside the signed 64-bit range, the catch-up loop terminates within the
allotted fuel: after at most six additions the counter passes 5, the
trigger time is forced to `time + period` (no wrap, by the range
hypothesis), and the next test exits. -/
theorem triggerLoop_terminates (time period : ℤ) (hp : 0 < period)
    (hmin : int64Min ≤ time) (hno : time + period ≤ int64Max) :
    ∀ fuel cnt tt, cnt ≤ 6 → 8 ≤ fuel + cnt → (cnt = 6 → tt = time + period) →
      ∃ r, triggerLoop time period fuel cnt tt = some r := by
  intro fuel
  induction fuel with
  | zero =>
    intro cnt tt h6 h8 _
    omega
  | succ n ih =>
    intro cnt tt h6 h8 hforce
    simp only [triggerLoop]
    by_cases hc : tt ≤ time
    · rw [if_pos hc]
      have hne : cnt ≠ 6 := by
        intro h
        rw [hforce h] at hc
        omega
      exact ih (cnt + 1) _ (by omega) (by omega)
        (fun h7 => by
          rw [if_pos (show 5 < cnt + 1 by omega)]
          exact wrap64_eq_self (by omega) hno)
    · rw [if_neg hc]
      exact ⟨tt, rfl⟩

/-- When the call time is the maximum representable raw code, every
trigger time the loop computes wraps back into the representable range
and so never exceeds the call time: the loop condition `time >=
triggerTime` stays true and the loop never exits, whatever the fuel. -/
theorem triggerLoop_stuck_at_maxTime :
    ∀ fuel cnt tt, tt ≤ maxTime → triggerLoop maxTime 1 fuel cnt tt = none := by
  intro fuel
  induction fuel with
  | zero =>
    intro cnt tt _
    rfl
  | succ n ih =>
    intro cnt tt h
    simp only [triggerLoop]
    rw [if_pos h]
    apply ih
    split
    · exact wrap64_le _
    · exact wrap64_le _

/-- C9 counterexample: at the maximum-sentinel call time itself (period 1,
strictly positive), the raw 64-bit addition `time + timePeriod` overflows;
every computed trigger time wraps back to at most `maxTime`, the loop
condition never becomes false, and the call never returns
(`triggerLoop_stuck_at_maxTime` shows this holds for every fuel, so the
fuel-10 result `none` is genuine divergence).  The claimed postconditions
(`lastTriggerTime = time`, `triggerTime > time`) are therefore never
established at this input, refuting the unqualified claim. -/
theorem C9_trigger_at_maxTime :
    collectorTrigger ⟨1, 0, 0, 0⟩ maxTime = none := by decide

/-- C9 amended: for every trigger call with a strictly positive
`timePeriod`, at a call time in the representable range whose advance by
one period does not overflow the signed 64-bit raw type (time +
timePeriod less than or equal to int64Max), the call returns, the new
`lastTriggerTime` equals the call time, the new `triggerTime` is strictly
greater than the call time, and whenever it exceeds `stopTime` it has
been set to the `maxTime` sentinel. -/
theorem C9_trigger (c : collectorState) (time : ℤ) (hp : 0 < c.timePeriod)
    (hmin : int64Min ≤ time) (hno : time + c.timePeriod ≤ int64Max) :
    ∃ c2, collectorTrigger c time = some c2 ∧ c2.lastTriggerTime = time ∧
      time < c2.triggerTime ∧ (c.stopTime < c2.triggerTime → c2.triggerTime = maxTime) := by
  have ht : time < maxTime := by
    simp only [maxTime]
    omega
  obtain ⟨r, hr⟩ := triggerLoop_terminates time c.timePeriod hp hmin hno 10 0 c.triggerTime
    (by omega) (by omega) (by omega)
  have hgt : time < r := triggerLoop_some_gt time c.timePeriod 10 0 c.triggerTime r hr
  refine ⟨⟨c.timePeriod, if c.stopTime < r then maxTime else r, time, c.stopTime⟩,
    ?_, rfl, ?_, ?_⟩
  · simp only [collectorTrigger, hr]
  · by_cases hs : c.stopTime < r
    · show time < (if c.stopTime < r then maxTime else r)
      rw [if_pos hs]
      exact ht
    · show time < (if c.stopTime < r then maxTime else r)
      rw [if_neg hs]
      exact hgt
  · intro h
    by_cases hs : c.stopTime < r
    · show (if c.stopTime < r then maxTime else r) = maxTime
      rw [if_pos hs]
    · revert h
      show c.stopTime < (if c.stopTime < r then maxTime else r) →
        (if c.stopTime < r then maxTime else r) = maxTime
      rw [if_neg hs]
      intro h
      exact absurd h hs

/-- C9 witness: the amended trigger theorem evaluated at a collector with
period 1 and stop time 0, triggered at time 0 (positive period, in-range
call time, no overflow): the hypotheses hold and the trigger advances
(here, past the stop time and onto the sentinel). -/
theorem C9_trigger_witness :
    ∃ c2, collectorTrigger ⟨1, 0, 0, 0⟩ 0 = some c2 ∧ c2.lastTriggerTime = 0 ∧
      (0 : ℤ) < c2.triggerTime ∧ ((0 : ℤ) < c2.triggerTime → c2.triggerTime = maxTime) :=
  C9_trigger ⟨1, 0, 0, 0⟩ 0 (by decide) (by decide) (by decide)

end GridDyn
